import Mathlib

/-!
Verification of the Ed25519 key-material adapter
(`ucan-key-support/src/ed25519.rs`).

The adapter wraps an `ed25519_zebra` public key together with an optional
signing key and implements the `KeyMaterial` contract: algorithm name, DID
derivation, signing and verification.  The Ed25519 arithmetic itself lives in
the external `ed25519_zebra` crate; it is modelled here by the abstract
structure `EdZebra`, while everything the adapter computes itself (error
routing, the multicodec tag, the base58btc DID encoding) is translated
directly from the source.  A `u8` is modelled as `Fin 256`.
-/

namespace UcanKey

/-- A byte. -/
abbrev Byte := Fin 256

/-! ### The bs58 crate: base58btc (Bitcoin/IPFS alphabet) encoding

`bs58::encode(bytes).into_string()` with the default alphabet: each leading
zero byte becomes the character mapped to digit 0, and the remaining bytes,
read as a big-endian number, are written in base 58, most significant digit
first.  `bs58::decode(s).into_vec()` reverses this, returning the byte values
as naturals here. -/

/-- The default (Bitcoin) alphabet of the bs58 crate. -/
def BASE58_ALPHABET : List Char :=
  "123456789ABCDEFGHJKLMNPQRSTUVWXYZabcdefghijkmnopqrstuvwxyz".toList

/-- Big-endian interpretation of a byte string as a natural number. -/
def beBytesToNat (bs : List Byte) : Nat :=
  Nat.ofDigits 256 (bs.reverse.map Fin.val)

/-- Number of leading zero bytes (each becomes a literal digit-zero char). -/
def leadingZeroCount : List Byte → Nat
  | [] => 0
  | b :: bs => if b = 0 then leadingZeroCount bs + 1 else 0

/-- The alphabet character of a base-58 digit. -/
def digitChar (d : Nat) : Char :=
  BASE58_ALPHABET.getD d '?'

/-- The characters of the bs58 encoding of a byte string. -/
def bs58EncodeChars (bs : List Byte) : List Char :=
  List.replicate (leadingZeroCount bs) '1' ++
    ((Nat.digits 58 (beBytesToNat bs)).reverse.map digitChar)

/-- `bs58::encode(bytes).into_string()`. -/
def bs58Encode (bs : List Byte) : String :=
  String.mk (bs58EncodeChars bs)

/-- The base-58 digit of a character, `none` for characters outside the
alphabet. -/
def charDigit (c : Char) : Option Nat :=
  BASE58_ALPHABET.findIdx? (fun a => a == c)

/-- Number of leading digit-zero characters of an encoded string. -/
def leadingOneCount : List Char → Nat
  | [] => 0
  | c :: cs => if c = '1' then leadingOneCount cs + 1 else 0

/-- Decode every character, failing on the first invalid one. -/
def traverseDigits : List Char → Option (List Nat)
  | [] => some []
  | c :: cs =>
    match charDigit c, traverseDigits cs with
    | some d, some ds => some (d :: ds)
    | _, _ => none

/-- `bs58::decode(s).into_vec()`: leading digit-zero characters become zero
bytes, the remaining value is written as a minimal big-endian byte string. -/
def bs58Decode (s : String) : Option (List Nat) :=
  match traverseDigits s.toList with
  | none => none
  | some ds =>
    some (List.replicate (leadingOneCount s.toList) 0 ++
      (Nat.digits 256 (Nat.ofDigits 58 ds.reverse)).reverse)

/-! ### The ed25519_zebra crate, abstractly

The adapter only uses: `VerificationKey::try_from` (a 32-byte string that
must decode to a curve point), `SigningKey::sign` (producing a 64-byte
signature), `VerificationKey::verify`, and `Signature::try_from` (which
checks only that the slice has length 64).  The curve arithmetic is kept
abstract: `validPoint`, `signRaw` and `verifyRaw` are parameters, constrained
only by the crate-guaranteed signature length. -/

/-- Abstract model of the `ed25519_zebra` operations used by the adapter. -/
structure EdZebra where
  /-- Whether a 32-byte encoding decompresses to a valid curve point
  (the part of `VerificationKey::try_from` beyond the length check). -/
  validPoint : List Byte → Bool
  /-- `SigningKey::sign`: seed bytes and payload to signature bytes. -/
  signRaw : List Byte → List Byte → List Byte
  /-- An Ed25519 signature is always exactly 64 bytes. -/
  sign_len : ∀ sk payload, (signRaw sk payload).length = 64
  /-- `VerificationKey::verify` on public-key bytes, signature bytes and
  payload, as a Boolean. -/
  verifyRaw : List Byte → List Byte → List Byte → Bool

/-- An `ed25519_zebra::VerificationKey`: 32 bytes of key material. -/
structure Ed25519PublicKey where
  bytes : List Byte
  len32 : bytes.length = 32

/-- An `ed25519_zebra::SigningKey`.  Modelled from the ed25519_zebra crate
(not vendored in this repository): a signing key is constructed from, and
serializes to, its 32-byte seed. -/
structure Ed25519PrivateKey where
  seed : List Byte
  len32 : seed.length = 32

/-- `Signature::try_from(&[u8])`: succeeds exactly on slices of length 64
(the 64 bytes are taken as the `r` and `s` components unchecked). -/
def signatureTryFrom (s : List Byte) : Option (List Byte) :=
  if s.length = 64 then some s else none

/-! ### The adapter itself (`ed25519.rs`) -/

/-- `ED25519_MAGIC_BYTES: [u8; 2] = [0xed, 0x01]`. -/
def ED25519_MAGIC_BYTES : List Byte := [0xed, 0x01]

/-- `Ed25519KeyMaterial(pub Ed25519PublicKey, pub Option<Ed25519PrivateKey>)`. -/
structure Ed25519KeyMaterial where
  pubKey : Ed25519PublicKey
  privKey : Option Ed25519PrivateKey

/-- The error of `sign`, named after the spec taxonomy; it carries the
`anyhow!` message of the source. -/
inductive SignError where
  | missingSigningKey (msg : String)
deriving DecidableEq

/-- The errors of `verify`, named after the spec taxonomy:
the propagated `Signature::try_from` failure, and the mapped
`VerificationKey::verify` failure. -/
inductive VerifyError where
  | invalidSignatureEncoding
  | signatureVerificationFailed
deriving DecidableEq

/-- The error of `bytes_to_ed25519_key`, named after the spec taxonomy. -/
inductive KeyEncodingError where
  | invalidKeyEncoding
deriving DecidableEq

/-- `get_jwt_algorithm_name`: the constant `"EdDSA"`. -/
def get_jwt_algorithm_name (_km : Ed25519KeyMaterial) : String :=
  "EdDSA"

/-- `get_did`: `Ok(format!("did:key:z{}", bs58::encode([0xed, 0x01] ++ pk)))`. -/
def get_did (km : Ed25519KeyMaterial) : Except String String :=
  Except.ok ("did:key:z" ++ bs58Encode (ED25519_MAGIC_BYTES ++ km.pubKey.bytes))

/-- `sign`: sign with the private key if present, otherwise
`Err(anyhow!("No private key; cannot sign data"))`. -/
def sign (z : EdZebra) (km : Ed25519KeyMaterial) (payload : List Byte) :
    Except SignError (List Byte) :=
  match km.privKey with
  | some k => Except.ok (z.signRaw k.seed payload)
  | none => Except.error (SignError.missingSigningKey "No private key; cannot sign data")

/-- `verify`: decode the signature with `Signature::try_from` (propagating its
failure), then check it with `VerificationKey::verify` (mapping its failure). -/
def verify (z : EdZebra) (km : Ed25519KeyMaterial) (payload sig : List Byte) :
    Except VerifyError Unit :=
  match signatureTryFrom sig with
  | none => Except.error VerifyError.invalidSignatureEncoding
  | some s =>
    if z.verifyRaw km.pubKey.bytes s payload then Except.ok ()
    else Except.error VerifyError.signatureVerificationFailed

/-- `VerificationKey::try_from(bytes)`: the slice must have length 32 and
decode to a valid curve point. -/
def ed25519PublicKeyTryFrom (z : EdZebra) (bytes : List Byte) :
    Option Ed25519PublicKey :=
  if h : bytes.length = 32 then
    if z.validPoint bytes then some ⟨bytes, h⟩ else none
  else none

/-- `bytes_to_ed25519_key`: decode a public key and wrap it with no private
key. -/
def bytes_to_ed25519_key (z : EdZebra) (bytes : List Byte) :
    Except KeyEncodingError Ed25519KeyMaterial :=
  match ed25519PublicKeyTryFrom z bytes with
  | some pk => Except.ok ⟨pk, none⟩
  | none => Except.error KeyEncodingError.invalidKeyEncoding

/-! ### Sample values, used to exhibit concrete runs of the adapter -/

/-- A sample all-zero public key. -/
def pk0 : Ed25519PublicKey := ⟨List.replicate 32 0, by simp⟩

/-- A sample private key (seed of 32 sevens). -/
def k0 : Ed25519PrivateKey := ⟨List.replicate 32 7, by simp⟩

/-- A verification-only instance. -/
def km0 : Ed25519KeyMaterial := ⟨pk0, none⟩

/-- An instance holding a private key. -/
def km1 : Ed25519KeyMaterial := ⟨pk0, some k0⟩

/-- A toy instantiation of the abstract primitives: the signature of a payload
is the payload padded to 64 bytes, and verification accepts exactly that
padding.  It satisfies the length law and makes the adapter fully
executable. -/
def toyZebra : EdZebra where
  validPoint := fun _ => true
  signRaw := fun _ p => (p ++ List.replicate 64 (0 : Byte)).take 64
  sign_len := by
    intro sk p
    simp [List.length_take]
  verifyRaw := fun _ sig p => decide (sig = (p ++ List.replicate 64 (0 : Byte)).take 64)

/-- The payload `b"hello"`. -/
def helloBytes : List Byte := [104, 101, 108, 108, 111]

/-- The payload `b"hellO"`. -/
def hellOBytes : List Byte := [104, 101, 108, 108, 79]

/-! ### Helper lemmas about the base58 encoding -/

theorem charDigit_digitChar : ∀ d, d < 58 → charDigit (digitChar d) = some d := by
  decide

theorem digitChar_ne_one : ∀ d, d < 58 → d ≠ 0 → digitChar d ≠ '1' := by
  decide

theorem traverseDigits_map_digitChar (L : List Nat) (h : ∀ d ∈ L, d < 58) :
    traverseDigits (L.map digitChar) = some L := by
  induction L with
  | nil => rfl
  | cons d L ih =>
    have hd : charDigit (digitChar d) = some d :=
      charDigit_digitChar d (h d (by simp))
    have ht : traverseDigits (L.map digitChar) = some L :=
      ih (fun x hx => h x (by simp [hx]))
    simp [traverseDigits, hd, ht]

theorem leadingOneCount_eq_zero {cs : List Char} {c : Char}
    (h : cs.head? = some c) (hc : c ≠ '1') : leadingOneCount cs = 0 := by
  cases cs with
  | nil => simp at h
  | cons a as =>
    simp only [List.head?_cons, Option.some.injEq] at h
    subst h
    simp [leadingOneCount, hc]

/-- Round trip of the bs58 model on byte strings with a nonzero first byte:
decoding the encoded string reproduces the bytes exactly. -/
theorem bs58_roundtrip (b : Byte) (bs : List Byte) (hb : (b : Nat) ≠ 0) :
    bs58Decode (bs58Encode (b :: bs)) = some ((b :: bs).map Fin.val) := by
  set N := beBytesToNat (b :: bs) with hN_def
  -- the byte digits of N are the reversed bytes
  have hL256 : ∀ x ∈ ((b :: bs).map Fin.val).reverse, x < 256 := by
    intro x hx
    rw [List.mem_reverse, List.mem_map] at hx
    obtain ⟨y, _, rfl⟩ := hx
    exact y.isLt
  have hLne : ((b :: bs).map Fin.val).reverse ≠ [] := by simp
  have hLlast : ∀ h : ((b :: bs).map Fin.val).reverse ≠ [],
      (((b :: bs).map Fin.val).reverse).getLast h ≠ 0 := by
    intro h
    have h1 : (((b :: bs).map Fin.val).reverse).getLast? = some (b : Nat) := by
      rw [List.getLast?_reverse]
      simp
    rw [List.getLast?_eq_getLast _ h, Option.some.injEq] at h1
    rw [h1]
    exact hb
  have digits256 : Nat.digits 256 N = ((b :: bs).map Fin.val).reverse := by
    have : N = Nat.ofDigits 256 (((b :: bs).map Fin.val).reverse) := by
      rw [hN_def, beBytesToNat, List.map_reverse]
    rw [this]
    exact Nat.digits_ofDigits 256 (by norm_num) _ hL256 hLlast
  have hN0 : N ≠ 0 := by
    intro h0
    rw [h0, Nat.digits_zero] at digits256
    exact hLne digits256.symm
  -- facts about the base-58 digits of N
  have hlt : ∀ d ∈ Nat.digits 58 N, d < 58 := fun d hd =>
    Nat.digits_lt_base (by norm_num) hd
  have hne : Nat.digits 58 N ≠ [] := Nat.digits_ne_nil_iff_ne_zero.mpr hN0
  have hlast : (Nat.digits 58 N).getLast hne ≠ 0 := Nat.getLast_digit_ne_zero 58 hN0
  -- the encoded characters
  have hzc : leadingZeroCount (b :: bs) = 0 := by
    have hb' : ¬ b = 0 := by
      intro h
      exact hb (by rw [h]; rfl)
    simp [leadingZeroCount, hb']
  have hchars : bs58EncodeChars (b :: bs) =
      (Nat.digits 58 N).reverse.map digitChar := by
    rw [bs58EncodeChars, hzc]
    simp
  -- the decoded string starts with a non-'1' character
  have hhead : ((Nat.digits 58 N).reverse.map digitChar).head? =
      some (digitChar ((Nat.digits 58 N).getLast hne)) := by
    rw [List.head?_map, List.head?_reverse, List.getLast?_eq_getLast _ hne]
    rfl
  have hc1 : digitChar ((Nat.digits 58 N).getLast hne) ≠ '1' :=
    digitChar_ne_one _ (hlt _ (List.getLast_mem hne)) hlast
  have hones : leadingOneCount ((Nat.digits 58 N).reverse.map digitChar) = 0 :=
    leadingOneCount_eq_zero hhead hc1
  have htrav : traverseDigits ((Nat.digits 58 N).reverse.map digitChar) =
      some ((Nat.digits 58 N).reverse) :=
    traverseDigits_map_digitChar _ (by
      intro d hd
      rw [List.mem_reverse] at hd
      exact hlt d hd)
  -- assemble
  have htolist : (bs58Encode (b :: bs)).toList =
      (Nat.digits 58 N).reverse.map digitChar := by
    rw [bs58Encode, hchars]
    rfl
  rw [bs58Decode, htolist, htrav, hones]
  simp only [List.replicate, List.nil_append, List.reverse_reverse,
    Nat.ofDigits_digits, digits256]

/-! ### The claims -/

/-- C1: `get_did` always succeeds and returns exactly `"did:key:z"` followed
by the base58btc encoding of the two tag bytes `0xed 0x01` concatenated with
the 32 raw public-key bytes; base58-decoding that payload and stripping the
first 2 bytes reproduces the original 32-byte public key exactly. -/
theorem C1_get_did_format_and_roundtrip (km : Ed25519KeyMaterial) :
    get_did km =
      Except.ok ("did:key:z" ++ bs58Encode (ED25519_MAGIC_BYTES ++ km.pubKey.bytes)) ∧
    bs58Decode (bs58Encode (ED25519_MAGIC_BYTES ++ km.pubKey.bytes)) =
      some ((ED25519_MAGIC_BYTES ++ km.pubKey.bytes).map Fin.val) ∧
    ((ED25519_MAGIC_BYTES ++ km.pubKey.bytes).map Fin.val).drop 2 =
      km.pubKey.bytes.map Fin.val := by
  refine ⟨rfl, ?_, by simp [ED25519_MAGIC_BYTES]⟩
  have h : ED25519_MAGIC_BYTES ++ km.pubKey.bytes =
      (0xed : Byte) :: (0x01 : Byte) :: km.pubKey.bytes := rfl
  rw [h]
  exact bs58_roundtrip _ _ (by decide)

/-- C2: `verify` fails with `InvalidSignatureEncoding` exactly when the
signature bytes do not decode into a 64-byte signature structure, fails with
`SignatureVerificationFailed` exactly when they decode but the signature is
cryptographically invalid for the payload under the instance's public key,
and succeeds exactly when the signature is valid — no other outcomes. -/
theorem C2_verify_error_cases (z : EdZebra) (km : Ed25519KeyMaterial)
    (payload sig : List Byte) :
    (verify z km payload sig = Except.error VerifyError.invalidSignatureEncoding ↔
      sig.length ≠ 64) ∧
    (verify z km payload sig = Except.error VerifyError.signatureVerificationFailed ↔
      sig.length = 64 ∧ z.verifyRaw km.pubKey.bytes sig payload = false) ∧
    (verify z km payload sig = Except.ok () ↔
      sig.length = 64 ∧ z.verifyRaw km.pubKey.bytes sig payload = true) := by
  unfold verify signatureTryFrom
  by_cases h : sig.length = 64
  · cases hv : z.verifyRaw km.pubKey.bytes sig payload <;> simp [h, hv]
  · simp [h]

/-- C3 counterexample: on a verification-only instance `sign` fails, but the
message it carries is `"No private key; cannot sign data"` (capital `N`),
not the claimed `"no private key; cannot sign data"`. -/
theorem C3_counterexample :
    sign toyZebra km0 [] =
      Except.error (SignError.missingSigningKey "No private key; cannot sign data") ∧
    sign toyZebra km0 [] ≠
      Except.error (SignError.missingSigningKey "no private key; cannot sign data") := by
  constructor
  · rfl
  · intro h
    have h1 : SignError.missingSigningKey "No private key; cannot sign data" =
        SignError.missingSigningKey "no private key; cannot sign data" :=
      Except.error.inj h
    injection h1 with h2
    exact absurd h2 (by decide)

/-- C3 amended: `sign` fails iff the instance holds no private key, and in
that case it fails with `MissingSigningKey` carrying the message
`"No private key; cannot sign data"`; when a private key is present, `sign`
succeeds. -/
theorem C3_amended_sign_missing_key (z : EdZebra) (km : Ed25519KeyMaterial)
    (payload : List Byte) :
    ((∃ e, sign z km payload = Except.error e) ↔ km.privKey = none) ∧
    (km.privKey = none →
      sign z km payload =
        Except.error (SignError.missingSigningKey "No private key; cannot sign data")) ∧
    (∀ k, km.privKey = some k →
      sign z km payload = Except.ok (z.signRaw k.seed payload)) := by
  obtain ⟨pk, sk⟩ := km
  cases sk <;> simp [sign]

/-- C4: for a key pair on which the primitive scheme is complete for
`payload` and rejects the altered payload `other`, the adapter's
`verify (payload, sign payload)` succeeds, and verifying the same signature
against `other` fails with `SignatureVerificationFailed`. -/
theorem C4_sign_verify_roundtrip (z : EdZebra) (pk : Ed25519PublicKey)
    (k : Ed25519PrivateKey) (payload other : List Byte)
    (hok : z.verifyRaw pk.bytes (z.signRaw k.seed payload) payload = true)
    (hbad : z.verifyRaw pk.bytes (z.signRaw k.seed payload) other = false) :
    ∃ sig, sign z ⟨pk, some k⟩ payload = Except.ok sig ∧
      verify z ⟨pk, some k⟩ payload sig = Except.ok () ∧
      verify z ⟨pk, some k⟩ other sig =
        Except.error VerifyError.signatureVerificationFailed := by
  refine ⟨z.signRaw k.seed payload, rfl, ?_, ?_⟩ <;>
    simp [verify, signatureTryFrom, z.sign_len, hok, hbad]

/-- C4 witness: with the toy primitives, signing `b"hello"` verifies against
`b"hello"` and fails against `b"hellO"`. -/
theorem C4_witness :
    ∃ sig, sign toyZebra ⟨pk0, some k0⟩ helloBytes = Except.ok sig ∧
      verify toyZebra ⟨pk0, some k0⟩ helloBytes sig = Except.ok () ∧
      verify toyZebra ⟨pk0, some k0⟩ hellOBytes sig =
        Except.error VerifyError.signatureVerificationFailed :=
  C4_sign_verify_roundtrip toyZebra pk0 k0 helloBytes hellOBytes
    (by decide) (by decide)

/-- C5: `bytes_to_ed25519_key` fails with `InvalidKeyEncoding` on input of
length ≠ 32, and on success returns a verification-only instance on which
every `sign` call fails with `MissingSigningKey`. -/
theorem C5_bytes_to_key_verification_only (z : EdZebra) (bytes : List Byte) :
    (bytes.length ≠ 32 →
      bytes_to_ed25519_key z bytes = Except.error KeyEncodingError.invalidKeyEncoding) ∧
    (∀ km, bytes_to_ed25519_key z bytes = Except.ok km →
      km.privKey = none ∧ ∀ payload,
        sign z km payload =
          Except.error (SignError.missingSigningKey "No private key; cannot sign data")) := by
  constructor
  · intro h
    simp [bytes_to_ed25519_key, ed25519PublicKeyTryFrom, h]
  · intro km hkm
    unfold bytes_to_ed25519_key at hkm
    split at hkm
    · cases hkm
      exact ⟨rfl, fun payload => rfl⟩
    · cases hkm

/-- C5 witness: a 3-byte input is rejected, and a successfully constructed
instance cannot sign. -/
theorem C5_witness :
    bytes_to_ed25519_key toyZebra [0, 1, 2] =
        Except.error KeyEncodingError.invalidKeyEncoding ∧
    ∀ km, bytes_to_ed25519_key toyZebra (List.replicate 32 0) = Except.ok km →
      km.privKey = none :=
  ⟨(C5_bytes_to_key_verification_only toyZebra [0, 1, 2]).1 (by decide),
   fun km h =>
    ((C5_bytes_to_key_verification_only toyZebra (List.replicate 32 0)).2 km h).1⟩

/-- C6: on an instance holding a private key, `sign` succeeds and returns
exactly 64 bytes. -/
theorem C6_sign_length (z : EdZebra) (km : Ed25519KeyMaterial)
    (k : Ed25519PrivateKey) (hk : km.privKey = some k) (payload : List Byte) :
    ∃ sig, sign z km payload = Except.ok sig ∧ sig.length = 64 := by
  refine ⟨z.signRaw k.seed payload, ?_, z.sign_len k.seed payload⟩
  unfold sign
  rw [hk]

/-- C6 witness: a concrete signing instance produces a 64-byte signature. -/
theorem C6_witness :
    ∃ sig, sign toyZebra km1 helloBytes = Except.ok sig ∧ sig.length = 64 :=
  C6_sign_length toyZebra km1 k0 rfl helloBytes

/-- C7: the algorithm-identification operation returns exactly `"EdDSA"` for
every instance; it is a total function of the instance alone. -/
theorem C7_algorithm_name (km : Ed25519KeyMaterial) :
    get_jwt_algorithm_name km = "EdDSA" := rfl

/-- C8 counterexample: a concrete instance holds a private key whose byte
representation (its seed, per the ed25519_zebra crate) has length 32, not the
claimed 64. -/
theorem C8_counterexample :
    km1.privKey = some k0 ∧ k0.seed.length = 32 ∧ (32 : Nat) ≠ 64 :=
  ⟨rfl, by simp [k0], by decide⟩

/-- C8 amended: the optional private-key attribute is a 32-byte Ed25519
signing key (its seed representation), while the required public-key
attribute is a 32-byte Ed25519 verification key. -/
theorem C8_amended_key_sizes (km : Ed25519KeyMaterial) :
    km.pubKey.bytes.length = 32 ∧
    ∀ k, km.privKey = some k → k.seed.length = 32 :=
  ⟨km.pubKey.len32, fun k _ => k.len32⟩

/-- C9: the signature-decoding step of `verify` succeeds exactly on byte
slices of length 64; `verify` reports `InvalidSignatureEncoding` exactly when
the length is not 64, and every other failure is
`SignatureVerificationFailed`. -/
theorem C9_signature_decoding_is_length_check (z : EdZebra)
    (km : Ed25519KeyMaterial) (payload sig : List Byte) :
    ((signatureTryFrom sig).isSome ↔ sig.length = 64) ∧
    (verify z km payload sig = Except.error VerifyError.invalidSignatureEncoding ↔
      sig.length ≠ 64) ∧
    (∀ e, verify z km payload sig = Except.error e → sig.length = 64 →
      e = VerifyError.signatureVerificationFailed) := by
  unfold verify signatureTryFrom
  by_cases h : sig.length = 64
  · cases hv : z.verifyRaw km.pubKey.bytes sig payload <;> simp [h, hv]
  · simp [h]

/-- C10: the derived DID depends only on the public key — two instances with
equal public keys yield identical DID strings, whatever private keys they
hold. -/
theorem C10_did_depends_only_on_public_key (km km' : Ed25519KeyMaterial)
    (h : km.pubKey = km'.pubKey) : get_did km = get_did km' := by
  unfold get_did
  rw [h]

/-- C10 witness: an instance with a private key and a verification-only
instance over the same public key give the same DID. -/
theorem C10_witness : get_did km1 = get_did km0 :=
  C10_did_depends_only_on_public_key km1 km0 rfl

end UcanKey
